import Mathlib

/-!
Verification of the session-establishment core of the `kcpraw` package
(`sess.go`): the address validator `checkAddr`, the two process-wide
caches (`mssCache`, `lisCache`) with their accessors, and the six
establishment entry points (`DialWithOptions`, `DialMulWithOptions`,
`DialMulWithOptions_udp`, `ListenWithOptions`, `ListenMulWithOptions`,
`ListenMulWithOptions_udp`).

External collaborators (the raw transport `rawcon`, the multiplexer
`mulcon`, the FEC session engine `kcp`, and the Go standard library's
UDP resolution/dial/listen) are modelled as oracles gathered in a
`World` record; the global mutable state (the two caches) is threaded
explicitly as a `GState`, together with a trace of collaborator
invocations so that properties of the form "no transport call is made"
or "the multiplexer is invoked with fixed parameters" can be stated.
-/

namespace Kcpraw

/-- Index of the first occurrence of a character in a list, if any
(models Go's `byteIndex`). -/
def firstIdx (c : Char) : List Char → Option Nat
  | [] => none
  | x :: xs => if x = c then some 0 else (firstIdx c xs).map Nat.succ

/-- Index of the last occurrence of a character in a list, if any
(models Go's `last`). -/
def lastIdx (c : Char) : List Char → Option Nat
  | [] => none
  | x :: xs =>
    match lastIdx c xs with
    | some j => some (j + 1)
    | none => if x = c then some 0 else none

/-- The error cases of Go's `net.SplitHostPort`. -/
inductive SplitErr where
  | missingPort
  | tooManyColons
  | missingRBracket
  | unexpectedLBracket
  | unexpectedRBracket
deriving DecidableEq, Repr

/-- Embedding of Go's `net.SplitHostPort`: the port starts after the
last colon; a host may be bracketed `[h]:p`; stray colons or brackets
are rejected.  Returns the host and port character lists. -/
def splitHostPort (s : List Char) : Except SplitErr (List Char × List Char) :=
  match lastIdx ':' s with
  | none => Except.error SplitErr.missingPort
  | some i =>
    if s.head? = some '[' then
      match firstIdx ']' s with
      | none => Except.error SplitErr.missingRBracket
      | some e =>
        if e + 1 = s.length then Except.error SplitErr.missingPort
        else if e + 1 = i then
          if (s.drop 1).contains '[' then Except.error SplitErr.unexpectedLBracket
          else if (s.drop (e + 1)).contains ']' then Except.error SplitErr.unexpectedRBracket
          else Except.ok ((s.take e).drop 1, s.drop (i + 1))
        else if (s.drop (e + 1)).head? = some ':' then Except.error SplitErr.tooManyColons
        else Except.error SplitErr.missingPort
    else
      if (s.take i).contains ':' then Except.error SplitErr.tooManyColons
      else if s.contains '[' then Except.error SplitErr.unexpectedLBracket
      else if s.contains ']' then Except.error SplitErr.unexpectedRBracket
      else Except.ok (s.take i, s.drop (i + 1))

/-- The distinct failure modes of `checkAddr` in `sess.go`: a
`net.SplitHostPort` failure is returned as-is; an empty host yields
"You must set the addr to ip:port"; host `0.0.0.0` yields
"You can't set host to 0.0.0.0". -/
inductive CheckErr where
  | splitFailed (e : SplitErr)
  | emptyHost
  | wildcardHost
deriving DecidableEq, Repr

/-- Embedding of `checkAddr` from `sess.go`: split the address, then
reject an empty host or the literal host `0.0.0.0`.  `none` means the
address passed validation. -/
def checkAddr (addr : String) : Option CheckErr :=
  match splitHostPort addr.data with
  | Except.error e => some (CheckErr.splitFailed e)
  | Except.ok (host, _) =>
    if host = [] then some CheckErr.emptyHost
    else if host = "0.0.0.0".data then some CheckErr.wildcardHost
    else none

/-- Association-list lookup with string keys, first match wins (models
a Go map read). -/
def mapLookup (k : String) : List (String × α) → Option α
  | [] => none
  | (k', v) :: rest => if k' = k then some v else mapLookup k rest

/-- Association-list insert that overwrites the existing binding for
the key in place (models a Go map write `m[k] = v`). -/
def mapInsert (k : String) (v : α) : List (String × α) → List (String × α)
  | [] => [(k, v)]
  | (k', v') :: rest =>
    if k' = k then (k, v) :: rest else (k', v') :: mapInsert k v rest

/-- A network address as seen through the `net.Addr` interface: a
network name and the canonical string form.  Only the string form is
used by the caches; the network field keeps distinct objects that
print identically distinguishable. -/
structure Addr where
  network : String
  str : String
deriving DecidableEq, Repr

/-- A raw-transport connection (`rawcon.RAWConn` through its used
interface): local address, remote address, and the negotiated MSS. -/
structure RawConn where
  localAddr : Addr
  remoteAddr : Addr
  mss : Int
deriving DecidableEq, Repr

/-- A raw-transport listener (`rawcon.RAWListener` through its used
interface): its bound local address plus an identity tag. -/
structure RAWListener where
  localAddr : Addr
  id : Nat
deriving DecidableEq, Repr

/-- An opaque cipher object (`kcp.BlockCrypt`), owned by the caller and
passed through unchanged. -/
structure BlockCrypt where
  id : Nat
deriving DecidableEq, Repr

/-- An opaque FEC session handle (`*kcp.UDPSession`). -/
structure Session where
  id : Nat
deriving DecidableEq, Repr

/-- An opaque FEC server-session handle (`*kcp.Listener`). -/
structure KcpListener where
  id : Nat
deriving DecidableEq, Repr

/-- An opaque multiplexed connection produced by `mulcon.Dial`. -/
structure MulConn where
  id : Nat
deriving DecidableEq, Repr

/-- An opaque multiplexed listener produced by `mulcon.Listen`. -/
structure MulListener where
  id : Nat
deriving DecidableEq, Repr

/-- A resolved UDP address (`*net.UDPAddr` through its used interface). -/
structure UDPAddr where
  str : String
deriving DecidableEq, Repr

/-- A plain UDP socket (`*net.UDPConn` through its used interface). -/
structure UDPConn where
  id : Nat
deriving DecidableEq, Repr

/-- The per-connection dial function handed to `mulcon.Dial`, described
by what it dials: `DialMulWithOptions` passes a closure over
`raw.DialRAW(raddr)`, `DialMulWithOptions_udp` a closure over
`net.DialUDP("udp4", nil, udpaddr)`. -/
inductive Dialer where
  | rawDialer (raddr : String)
  | udpDialer (udpaddr : UDPAddr)
deriving DecidableEq, Repr

/-- The base listener/socket handed to `mulcon.Listen`: a raw-transport
listener on the plain path, a UDP socket on the `_udp` path. -/
inductive MulBase where
  | rawBase (lis : RAWListener)
  | udpBase (conn : UDPConn)
deriving DecidableEq, Repr

/-- The connection handed to `kcp.NewConn`: the raw connection on the
plain dial path, the multiplexed connection on the multiplexed paths. -/
inductive PacketConn where
  | raw (c : RawConn)
  | mul (c : MulConn)
deriving DecidableEq, Repr

/-- The listener handed to `kcp.ServeConn`: the raw listener on the
plain listen path, the multiplexed listener on the multiplexed paths. -/
inductive ServeSrc where
  | rawSrc (l : RAWListener)
  | mulSrc (l : MulListener)
deriving DecidableEq, Repr

/-- Errors.  `base` stands for an arbitrary collaborator error value;
`invalidAddress` carries a `checkAddr` failure; `wrap msg e` models
`errors.Wrap(e, msg)`, the stage annotation attached on propagation. -/
inductive Err where
  | base (msg : String)
  | invalidAddress (e : CheckErr)
  | wrap (msg : String) (e : Err)
deriving DecidableEq, Repr

/-- Whether an error carries a stage annotation (an `errors.Wrap`
layer). -/
def isWrapped : Err → Bool
  | Err.wrap _ _ => true
  | _ => false

/-- One observable collaborator invocation, recorded in the trace:
which external function was called and with which arguments. -/
inductive Event where
  | evCheckAddr (addr : String)
  | evDialRAW (raddr : String)
  | evListenRAW (laddr : String)
  | evResolveUDP (network : String) (addr : String)
  | evListenUDP (network : String) (addr : UDPAddr)
  | evMulDial (d : Dialer) (conns : Int) (method : String) (secret : String)
  | evMulListen (base : MulBase) (method : String) (secret : String)
deriving DecidableEq, Repr

/-- The process-wide mutable state of the package: the MSS cache, the
listener cache, and a trace of invocations (most recent first). -/
structure GState where
  mssCache : List (String × Int)
  lisCache : List (String × RAWListener)
  trace : List Event
deriving DecidableEq, Repr

/-- The state produced by the package's `init`: both caches empty. -/
def initState : GState :=
  { mssCache := [], lisCache := [], trace := [] }

/-- Record one invocation in the trace; caches are untouched. -/
def logEv (st : GState) (ev : Event) : GState :=
  { st with trace := ev :: st.trace }

/-- The external collaborators, as result oracles: for each call the
oracle gives the value or error that call returns. -/
structure World where
  dialRAW : String → Except Err RawConn
  listenRAW : String → Except Err RAWListener
  resolveUDPAddr : String → String → Except Err UDPAddr
  listenUDP : String → UDPAddr → Except Err UDPConn
  mulDial : Dialer → Int → String → String → Except Err MulConn
  mulListen : MulBase → String → String → Except Err MulListener
  newConn : String → BlockCrypt → Int → Int → PacketConn → Except Err Session
  serveConn : BlockCrypt → Int → Int → ServeSrc → Except Err KcpListener

/-- The fixed cipher method used by every multiplexed path
(`const mulconMethod = "chacha20-ietf"`). -/
def mulconMethod : String := "chacha20-ietf"

/-- `GetMSSByAddr` from `sess.go`: look up the concatenation of the
local and remote address strings in the MSS cache; 0 when absent. -/
def GetMSSByAddr (st : GState) (laddr raddr : Addr) : Int :=
  match mapLookup (laddr.str ++ raddr.str) st.mssCache with
  | some mss => mss
  | none => 0

/-- `putMSSByAddr` from `sess.go`: store the MSS under the
concatenation of the local and remote address strings. -/
def putMSSByAddr (st : GState) (laddr raddr : Addr) (mss : Int) : GState :=
  { st with mssCache := mapInsert (laddr.str ++ raddr.str) mss st.mssCache }

/-- `GetListenerByAddr` from `sess.go`: look up the local address
string in the listener cache; `none` (Go `nil`) when absent. -/
def GetListenerByAddr (st : GState) (laddr : Addr) : Option RAWListener :=
  mapLookup laddr.str st.lisCache

/-- `putListenerByAddr` from `sess.go`: store the listener under its
local address string. -/
def putListenerByAddr (st : GState) (laddr : Addr) (lis : RAWListener) : GState :=
  { st with lisCache := mapInsert laddr.str lis st.lisCache }

/-- `DialWithOptions` from `sess.go`: validate the remote address, dial
the raw transport, record the connection's MSS keyed by its own
local/remote pair, and wrap the connection via `kcp.NewConn`.
Validation failures are wrapped as "checkAddr", dial failures as
"net.DialRAW"; `kcp.NewConn`'s result is returned as-is. -/
def DialWithOptions (w : World) (raddr : String) (block : BlockCrypt)
    (dataShards parityShards : Int) (st : GState) :
    Except Err Session × GState :=
  let st := logEv st (Event.evCheckAddr raddr)
  match checkAddr raddr with
  | some e => (Except.error (Err.wrap "checkAddr" (Err.invalidAddress e)), st)
  | none =>
    let st := logEv st (Event.evDialRAW raddr)
    match w.dialRAW raddr with
    | Except.error e => (Except.error (Err.wrap "net.DialRAW" e), st)
    | Except.ok conn =>
      let st := putMSSByAddr st conn.localAddr conn.remoteAddr conn.mss
      (w.newConn raddr block dataShards parityShards (PacketConn.raw conn), st)

/-- `DialMulWithOptions_udp` from `sess.go`: resolve the address as
"udp4" (no `checkAddr`), hand a plain-UDP dialer to `mulcon.Dial` with
the fixed connection count 10, the fixed method, and the fixed secret
"123", and wrap the result via `kcp.NewConn`.  The resolution error is
returned unwrapped; the `mulcon.Dial` error is wrapped as
"DialMulWithOptions". -/
def DialMulWithOptions_udp (w : World) (raddr : String) (block : BlockCrypt)
    (dataShards parityShards : Int) (st : GState) :
    Except Err Session × GState :=
  let st := logEv st (Event.evResolveUDP "udp4" raddr)
  match w.resolveUDPAddr "udp4" raddr with
  | Except.error e => (Except.error e, st)
  | Except.ok udpaddr =>
    let st := logEv st (Event.evMulDial (Dialer.udpDialer udpaddr) 10 mulconMethod "123")
    match w.mulDial (Dialer.udpDialer udpaddr) 10 mulconMethod "123" with
    | Except.error e => (Except.error (Err.wrap "DialMulWithOptions" e), st)
    | Except.ok conn =>
      (w.newConn raddr block dataShards parityShards (PacketConn.mul conn), st)

/-- `DialMulWithOptions` from `sess.go`: validate the remote address,
hand a raw-transport dialer to `mulcon.Dial` with the caller's
connection count and secret and the fixed method, and wrap the result
via `kcp.NewConn`. -/
def DialMulWithOptions (w : World) (raddr : String) (block : BlockCrypt)
    (dataShards parityShards : Int) (secret : String) (mulconn : Int)
    (st : GState) : Except Err Session × GState :=
  let st := logEv st (Event.evCheckAddr raddr)
  match checkAddr raddr with
  | some e => (Except.error (Err.wrap "checkAddr" (Err.invalidAddress e)), st)
  | none =>
    let st := logEv st (Event.evMulDial (Dialer.rawDialer raddr) mulconn mulconMethod secret)
    match w.mulDial (Dialer.rawDialer raddr) mulconn mulconMethod secret with
    | Except.error e => (Except.error (Err.wrap "DialMulWithOptions" e), st)
    | Except.ok conn =>
      (w.newConn raddr block dataShards parityShards (PacketConn.mul conn), st)

/-- `ListenWithOptions` from `sess.go`: validate the local address,
open a raw-transport listener, record it in the listener cache keyed by
its bound local address, and wrap it via `kcp.ServeConn`. -/
def ListenWithOptions (w : World) (laddr : String) (block : BlockCrypt)
    (dataShards parityShards : Int) (st : GState) :
    Except Err KcpListener × GState :=
  let st := logEv st (Event.evCheckAddr laddr)
  match checkAddr laddr with
  | some e => (Except.error (Err.wrap "checkAddr" (Err.invalidAddress e)), st)
  | none =>
    let st := logEv st (Event.evListenRAW laddr)
    match w.listenRAW laddr with
    | Except.error e => (Except.error (Err.wrap "net.ListenRAW" e), st)
    | Except.ok lis =>
      let st := putListenerByAddr st lis.localAddr lis
      (w.serveConn block dataShards parityShards (ServeSrc.rawSrc lis), st)

/-- `ListenMulWithOptions_udp` from `sess.go`: resolve the local
address as "udp4" (no `checkAddr`), bind a plain UDP socket, wrap it
with `mulcon.Listen` using the fixed method and the fixed secret "123",
and wrap the result via `kcp.ServeConn`.  The resolution error is
returned unwrapped; the UDP-listen error is wrapped as "net.ListenRAW"
(as in the source), the `mulcon.Listen` error as
"ListenMulWithOptions". -/
def ListenMulWithOptions_udp (w : World) (laddr : String) (block : BlockCrypt)
    (dataShards parityShards : Int) (st : GState) :
    Except Err KcpListener × GState :=
  let st := logEv st (Event.evResolveUDP "udp4" laddr)
  match w.resolveUDPAddr "udp4" laddr with
  | Except.error e => (Except.error e, st)
  | Except.ok udpaddr =>
    let st := logEv st (Event.evListenUDP "udp4" udpaddr)
    match w.listenUDP "udp4" udpaddr with
    | Except.error e => (Except.error (Err.wrap "net.ListenRAW" e), st)
    | Except.ok conn =>
      let st := logEv st (Event.evMulListen (MulBase.udpBase conn) mulconMethod "123")
      match w.mulListen (MulBase.udpBase conn) mulconMethod "123" with
      | Except.error e => (Except.error (Err.wrap "ListenMulWithOptions" e), st)
      | Except.ok mlis =>
        (w.serveConn block dataShards parityShards (ServeSrc.mulSrc mlis), st)

/-- `ListenMulWithOptions` from `sess.go`: open a raw-transport
listener (no `checkAddr`), wrap it with `mulcon.Listen` using the fixed
method and the caller's secret, and wrap the result via
`kcp.ServeConn`.  The listener is not recorded in the listener cache. -/
def ListenMulWithOptions (w : World) (laddr : String) (block : BlockCrypt)
    (dataShards parityShards : Int) (secret : String) (st : GState) :
    Except Err KcpListener × GState :=
  let st := logEv st (Event.evListenRAW laddr)
  match w.listenRAW laddr with
  | Except.error e => (Except.error (Err.wrap "net.ListenRAW" e), st)
  | Except.ok lis =>
    let st := logEv st (Event.evMulListen (MulBase.rawBase lis) mulconMethod secret)
    match w.mulListen (MulBase.rawBase lis) mulconMethod secret with
    | Except.error e => (Except.error (Err.wrap "ListenMulWithOptions" e), st)
    | Except.ok mlis =>
      (w.serveConn block dataShards parityShards (ServeSrc.mulSrc mlis), st)

/-! ### Association-list lemmas -/

theorem mapLookup_mapInsert (k : String) (v : α) (m : List (String × α)) :
    mapLookup k (mapInsert k v m) = some v := by
  induction m with
  | nil => simp [mapLookup, mapInsert]
  | cons p rest ih =>
    obtain ⟨k', v'⟩ := p
    by_cases h : k' = k
    · simp [mapLookup, mapInsert, h]
    · simp [mapLookup, mapInsert, h, ih]

theorem mapInsert_idem (k : String) (v : α) (m : List (String × α)) :
    mapInsert k v (mapInsert k v m) = mapInsert k v m := by
  induction m with
  | nil => simp [mapInsert]
  | cons p rest ih =>
    obtain ⟨k', v'⟩ := p
    by_cases h : k' = k
    · simp [mapInsert, h]
    · simp [mapInsert, h, ih]

/-! ### Claim theorems -/

/-- C1: `checkAddr` fails exactly when the address cannot be split
into host and port components, or the host is empty, or the host is
literally "0.0.0.0"; every other address passes validation (the
function is pure, so it has no side effects). -/
theorem checkAddr_spec (addr : String) :
    checkAddr addr ≠ none ↔
      (∃ e, splitHostPort addr.data = Except.error e) ∨
      (∃ port, splitHostPort addr.data = Except.ok ([], port)) ∨
      (∃ port, splitHostPort addr.data = Except.ok ("0.0.0.0".data, port)) := by
  unfold checkAddr
  cases h : splitHostPort addr.data with
  | error e => simp
  | ok hp =>
    obtain ⟨host, port⟩ := hp
    by_cases h1 : host = []
    · simp [h1]
    · by_cases h2 : host = "0.0.0.0".data
      · simp [h1, h2]
      · simp [h1, h2, Ne.symm h1, Ne.symm h2]

/-- C8: cache writes are idempotent — repeating `putMSSByAddr` with
the same addresses and value leaves the state exactly as one write,
after which `GetMSSByAddr` returns that value; likewise for
`putListenerByAddr` and `GetListenerByAddr`. -/
theorem cache_writes_idempotent (st : GState) (L R A : Addr) (mss : Int)
    (lis : RAWListener) :
    putMSSByAddr (putMSSByAddr st L R mss) L R mss = putMSSByAddr st L R mss ∧
    GetMSSByAddr (putMSSByAddr st L R mss) L R = mss ∧
    putListenerByAddr (putListenerByAddr st A lis) A lis = putListenerByAddr st A lis ∧
    GetListenerByAddr (putListenerByAddr st A lis) A = some lis := by
  refine ⟨?_, ?_, ?_, ?_⟩
  · simp [putMSSByAddr, mapInsert_idem]
  · simp [GetMSSByAddr, putMSSByAddr, mapLookup_mapInsert]
  · simp [putListenerByAddr, mapInsert_idem]
  · simp [GetListenerByAddr, putListenerByAddr, mapLookup_mapInsert]

/-- C9: the MSS cache keys addresses by their printed form — writing
under `(L1, R1)` and reading under `(L2, R2)` returns the written
value whenever `L1, L2` and `R1, R2` print identically, even for
distinct address objects. -/
theorem addrKey_by_printed_form (st : GState) (L1 L2 R1 R2 : Addr) (m : Int)
    (hL : L1.str = L2.str) (hR : R1.str = R2.str) :
    GetMSSByAddr (putMSSByAddr st L1 R1 m) L2 R2 = m := by
  simp [GetMSSByAddr, putMSSByAddr, ← hL, ← hR, mapLookup_mapInsert]

/-- Witness for C9 at concrete distinct address objects (same printed
form, different network field). -/
theorem addrKey_by_printed_form_witness :
    Addr.mk "tcp" "1.2.3.4:80" ≠ Addr.mk "udp" "1.2.3.4:80" ∧
    GetMSSByAddr
      (putMSSByAddr initState (Addr.mk "tcp" "1.2.3.4:80") (Addr.mk "tcp" "5.6.7.8:90") 1400)
      (Addr.mk "udp" "1.2.3.4:80") (Addr.mk "udp" "5.6.7.8:90") = 1400 := by
  refine ⟨by decide, ?_⟩
  exact addrKey_by_printed_form initState (Addr.mk "tcp" "1.2.3.4:80")
    (Addr.mk "udp" "1.2.3.4:80") (Addr.mk "tcp" "5.6.7.8:90")
    (Addr.mk "udp" "5.6.7.8:90") 1400 rfl rfl

/-- C10: the bare concatenation key is not injective on address pairs —
the distinct pairs ("1.2.3.4:5", "6:7") and ("1.2.3.4:56", ":7") share
the key "1.2.3.4:56:7", so a write under the first is observed by a
lookup under the second. -/
theorem addrKey_not_injective (st : GState) (m : Int) :
    (Addr.mk "tcp" "1.2.3.4:5").str ≠ (Addr.mk "tcp" "1.2.3.4:56").str ∧
    GetMSSByAddr
      (putMSSByAddr st (Addr.mk "tcp" "1.2.3.4:5") (Addr.mk "tcp" "6:7") m)
      (Addr.mk "tcp" "1.2.3.4:56") (Addr.mk "tcp" ":7") = m := by
  refine ⟨by decide, ?_⟩
  have hk : ("1.2.3.4:56" : String) ++ ":7" = "1.2.3.4:5" ++ "6:7" := by decide
  simp [GetMSSByAddr, putMSSByAddr, hk, mapLookup_mapInsert]

/-! ### Concrete worlds for witnesses and counterexamples -/

/-- A concrete local address used in witnesses. -/
def addrL : Addr := { network := "tcp", str := "10.0.0.2:4444" }

/-- A concrete remote address used in witnesses. -/
def addrR : Addr := { network := "tcp", str := "10.0.0.1:1234" }

/-- A concrete raw connection reporting MSS 1400. -/
def connA : RawConn := { localAddr := addrL, remoteAddr := addrR, mss := 1400 }

/-- A concrete raw listener bound at 127.0.0.1:5000. -/
def lisA : RAWListener :=
  { localAddr := { network := "tcp", str := "127.0.0.1:5000" }, id := 7 }

/-- A world in which every collaborator call succeeds. -/
def Wok : World where
  dialRAW _ := Except.ok connA
  listenRAW _ := Except.ok lisA
  resolveUDPAddr _ a := Except.ok { str := a }
  listenUDP _ _ := Except.ok { id := 3 }
  mulDial _ _ _ _ := Except.ok { id := 4 }
  mulListen _ _ _ := Except.ok { id := 5 }
  newConn _ _ _ _ _ := Except.ok { id := 1 }
  serveConn _ _ _ _ := Except.ok { id := 2 }

/-- A world in which every collaborator call fails, each with its own
error message. -/
def Wfail : World where
  dialRAW _ := Except.error (Err.base "edial")
  listenRAW _ := Except.error (Err.base "elisten")
  resolveUDPAddr _ _ := Except.error (Err.base "eresolve")
  listenUDP _ _ := Except.error (Err.base "eludp")
  mulDial _ _ _ _ := Except.error (Err.base "emul")
  mulListen _ _ _ := Except.error (Err.base "emull")
  newConn _ _ _ _ _ := Except.error (Err.base "enew")
  serveConn _ _ _ _ := Except.error (Err.base "eserve")

/-- C2: after a successful raw dial inside `DialWithOptions`, an MSS
lookup under the connection's own local/remote pair returns the MSS
the connection reported; and for any pair whose key was never
recorded, `GetMSSByAddr` returns 0. -/
theorem dial_records_mss :
    (∀ (w : World) (raddr : String) (b : BlockCrypt) (ds ps : Int)
        (st : GState) (conn : RawConn),
      checkAddr raddr = none → w.dialRAW raddr = Except.ok conn →
      GetMSSByAddr (DialWithOptions w raddr b ds ps st).2
        conn.localAddr conn.remoteAddr = conn.mss) ∧
    (∀ (st : GState) (L R : Addr),
      mapLookup (L.str ++ R.str) st.mssCache = none →
      GetMSSByAddr st L R = 0) := by
  constructor
  · intro w raddr b ds ps st conn hchk hdial
    simp [DialWithOptions, hchk, hdial, logEv, GetMSSByAddr, putMSSByAddr,
      mapLookup_mapInsert]
  · intro st L R h
    simp [GetMSSByAddr, h]

/-- Witness for C2: in the all-success world, dialing records MSS 1400
for the connection's address pair, and the fresh initial state reports
0 for that pair. -/
theorem dial_records_mss_witness :
    GetMSSByAddr
      (DialWithOptions Wok "10.0.0.1:1234" ⟨0⟩ 10 3 initState).2 addrL addrR = 1400 ∧
    GetMSSByAddr initState addrL addrR = 0 := by
  constructor
  · exact dial_records_mss.1 Wok "10.0.0.1:1234" ⟨0⟩ 10 3 initState connA
      (by decide) rfl
  · exact dial_records_mss.2 initState addrL addrR rfl

/-- C3: when validation rejects the remote address, `DialWithOptions`
returns no session and the wrapped `InvalidAddress` error, and the
whole resulting state is the input state plus only the validation
trace event — in particular no raw dial happened and both caches are
unchanged; moreover, when the raw dial itself fails, both caches are
unchanged too. -/
theorem dial_failure_no_record :
    (∀ (w : World) (raddr : String) (b : BlockCrypt) (ds ps : Int)
        (st : GState) (e : CheckErr),
      checkAddr raddr = some e →
      DialWithOptions w raddr b ds ps st =
        (Except.error (Err.wrap "checkAddr" (Err.invalidAddress e)),
         logEv st (Event.evCheckAddr raddr))) ∧
    (∀ (w : World) (raddr : String) (b : BlockCrypt) (ds ps : Int)
        (st : GState) (e : Err),
      w.dialRAW raddr = Except.error e →
      (DialWithOptions w raddr b ds ps st).2.mssCache = st.mssCache ∧
      (DialWithOptions w raddr b ds ps st).2.lisCache = st.lisCache) := by
  constructor
  · intro w raddr b ds ps st e hchk
    simp [DialWithOptions, hchk]
  · intro w raddr b ds ps st e hdial
    cases hchk : checkAddr raddr with
    | some ce => simp [DialWithOptions, hchk, logEv]
    | none => simp [DialWithOptions, hchk, hdial, logEv]

/-- Witness for C3: dialing "0.0.0.0:1234" fails with the wrapped
wildcard-host error and adds only the validation event; in the
all-fail world a raw-dial failure leaves both caches of the initial
state unchanged. -/
theorem dial_failure_no_record_witness :
    (DialWithOptions Wok "0.0.0.0:1234" ⟨0⟩ 10 3 initState =
      (Except.error (Err.wrap "checkAddr" (Err.invalidAddress CheckErr.wildcardHost)),
       logEv initState (Event.evCheckAddr "0.0.0.0:1234"))) ∧
    ((DialWithOptions Wfail "1.2.3.4:80" ⟨0⟩ 10 3 initState).2.mssCache =
        initState.mssCache ∧
     (DialWithOptions Wfail "1.2.3.4:80" ⟨0⟩ 10 3 initState).2.lisCache =
        initState.lisCache) := by
  constructor
  · exact dial_failure_no_record.1 Wok "0.0.0.0:1234" ⟨0⟩ 10 3 initState
      CheckErr.wildcardHost (by decide)
  · exact dial_failure_no_record.2 Wfail "1.2.3.4:80" ⟨0⟩ 10 3 initState
      (Err.base "edial") rfl

/-- C5: after a successful raw listen inside `ListenWithOptions`, a
listener-cache lookup under the listener's bound local address returns
exactly that listener; and for any address whose key was never
recorded, `GetListenerByAddr` returns `none`. -/
theorem listen_records_listener :
    (∀ (w : World) (laddr : String) (b : BlockCrypt) (ds ps : Int)
        (st : GState) (lis : RAWListener),
      checkAddr laddr = none → w.listenRAW laddr = Except.ok lis →
      GetListenerByAddr (ListenWithOptions w laddr b ds ps st).2
        lis.localAddr = some lis) ∧
    (∀ (st : GState) (a : Addr),
      mapLookup a.str st.lisCache = none →
      GetListenerByAddr st a = none) := by
  constructor
  · intro w laddr b ds ps st lis hchk hlis
    simp [ListenWithOptions, hchk, hlis, logEv, GetListenerByAddr,
      putListenerByAddr, mapLookup_mapInsert]
  · intro st a h
    simp [GetListenerByAddr, h]

/-- Witness for C5: in the all-success world, listening on
"127.0.0.1:5000" records the raw listener under its bound address, and
the fresh initial state reports no listener there. -/
theorem listen_records_listener_witness :
    GetListenerByAddr
      (ListenWithOptions Wok "127.0.0.1:5000" ⟨0⟩ 10 3 initState).2
      lisA.localAddr = some lisA ∧
    GetListenerByAddr initState lisA.localAddr = none := by
  constructor
  · exact listen_records_listener.1 Wok "127.0.0.1:5000" ⟨0⟩ 10 3 initState lisA
      (by decide) rfl
  · exact listen_records_listener.2 initState lisA.localAddr rfl

/-- C6: the four multiplexed establishment paths never write either
cache — whatever the collaborators do, both the MSS cache and the
listener cache are exactly as before the call. -/
theorem mul_paths_preserve_caches (w : World) (raddr laddr : String)
    (b : BlockCrypt) (ds ps mulconn : Int) (secret : String) (st : GState) :
    (DialMulWithOptions w raddr b ds ps secret mulconn st).2.mssCache = st.mssCache ∧
    (DialMulWithOptions w raddr b ds ps secret mulconn st).2.lisCache = st.lisCache ∧
    (DialMulWithOptions_udp w raddr b ds ps st).2.mssCache = st.mssCache ∧
    (DialMulWithOptions_udp w raddr b ds ps st).2.lisCache = st.lisCache ∧
    (ListenMulWithOptions w laddr b ds ps secret st).2.mssCache = st.mssCache ∧
    (ListenMulWithOptions w laddr b ds ps secret st).2.lisCache = st.lisCache ∧
    (ListenMulWithOptions_udp w laddr b ds ps st).2.mssCache = st.mssCache ∧
    (ListenMulWithOptions_udp w laddr b ds ps st).2.lisCache = st.lisCache := by
  refine ⟨?_, ?_, ?_, ?_, ?_, ?_, ?_, ?_⟩ <;>
    · simp only [DialMulWithOptions, DialMulWithOptions_udp,
        ListenMulWithOptions, ListenMulWithOptions_udp, logEv]
      repeat' split
      all_goals rfl

/-- C7: the `_udp` variants perform no address validation and use the
fixed internal parameters — `DialMulWithOptions_udp` resolves the
address itself over "udp4" and every multiplexer dial it issues uses
connection count 10, the fixed method, and secret "123" on a plain-UDP
dialer built from that resolution; `ListenMulWithOptions_udp` likewise
issues multiplexer listens only with the fixed method and secret
"123"; the fixed method is literally "chacha20-ietf". -/
theorem udp_variants_fixed_params (w : World) (raddr laddr : String)
    (b : BlockCrypt) (ds ps : Int) (st stl : GState) :
    (∀ a, Event.evCheckAddr a ∈ (DialMulWithOptions_udp w raddr b ds ps st).2.trace →
        Event.evCheckAddr a ∈ st.trace) ∧
    Event.evResolveUDP "udp4" raddr ∈ (DialMulWithOptions_udp w raddr b ds ps st).2.trace ∧
    (∀ d n m pw,
      Event.evMulDial d n m pw ∈ (DialMulWithOptions_udp w raddr b ds ps st).2.trace →
      Event.evMulDial d n m pw ∈ st.trace ∨
        (n = 10 ∧ m = mulconMethod ∧ pw = "123" ∧
          ∃ u, d = Dialer.udpDialer u ∧
            w.resolveUDPAddr "udp4" raddr = Except.ok u)) ∧
    (∀ a, Event.evCheckAddr a ∈ (ListenMulWithOptions_udp w laddr b ds ps stl).2.trace →
        Event.evCheckAddr a ∈ stl.trace) ∧
    (∀ base m pw,
      Event.evMulListen base m pw ∈ (ListenMulWithOptions_udp w laddr b ds ps stl).2.trace →
      Event.evMulListen base m pw ∈ stl.trace ∨ (m = mulconMethod ∧ pw = "123")) ∧
    mulconMethod = "chacha20-ietf" := by
  refine ⟨?_, ?_, ?_, ?_, ?_, rfl⟩
  · intro a
    simp only [DialMulWithOptions_udp, logEv]
    cases hres : w.resolveUDPAddr "udp4" raddr with
    | error e => simp
    | ok u =>
      cases hmul : w.mulDial (Dialer.udpDialer u) 10 mulconMethod "123" with
      | error e => simp [hmul]
      | ok c => simp [hmul]
  · simp only [DialMulWithOptions_udp, logEv]
    cases hres : w.resolveUDPAddr "udp4" raddr with
    | error e => simp
    | ok u =>
      cases hmul : w.mulDial (Dialer.udpDialer u) 10 mulconMethod "123" with
      | error e => simp [hmul]
      | ok c => simp [hmul]
  · intro d n m pw
    simp only [DialMulWithOptions_udp, logEv]
    cases hres : w.resolveUDPAddr "udp4" raddr with
    | error e =>
      intro h
      exact Or.inl (by simpa using h)
    | ok u =>
      cases hmul : w.mulDial (Dialer.udpDialer u) 10 mulconMethod "123" with
      | error e =>
        simp only [hmul, List.mem_cons]
        rintro (h | h | h)
        · obtain ⟨rfl, rfl, rfl, rfl⟩ := Event.evMulDial.inj h
          exact Or.inr ⟨rfl, rfl, rfl, u, rfl, rfl⟩
        · exact Event.noConfusion h
        · exact Or.inl h
      | ok c =>
        simp only [hmul, List.mem_cons]
        rintro (h | h | h)
        · obtain ⟨rfl, rfl, rfl, rfl⟩ := Event.evMulDial.inj h
          exact Or.inr ⟨rfl, rfl, rfl, u, rfl, rfl⟩
        · exact Event.noConfusion h
        · exact Or.inl h
  · intro a
    simp only [ListenMulWithOptions_udp, logEv]
    cases hres : w.resolveUDPAddr "udp4" laddr with
    | error e => simp
    | ok u =>
      cases hudp : w.listenUDP "udp4" u with
      | error e => simp [hudp]
      | ok conn =>
        cases hmul : w.mulListen (MulBase.udpBase conn) mulconMethod "123" with
        | error e => simp [hudp, hmul]
        | ok mlis => simp [hudp, hmul]
  · intro base m pw
    simp only [ListenMulWithOptions_udp, logEv]
    cases hres : w.resolveUDPAddr "udp4" laddr with
    | error e =>
      intro h
      exact Or.inl (by simpa using h)
    | ok u =>
      cases hudp : w.listenUDP "udp4" u with
      | error e =>
        simp only [hudp, List.mem_cons]
        rintro (h | h | h)
        · exact Event.noConfusion h
        · exact Event.noConfusion h
        · exact Or.inl h
      | ok conn =>
        cases hmul : w.mulListen (MulBase.udpBase conn) mulconMethod "123" with
        | error e =>
          simp only [hudp, hmul, List.mem_cons]
          rintro (h | h | h | h)
          · obtain ⟨rfl, rfl, rfl⟩ := Event.evMulListen.inj h
            exact Or.inr ⟨rfl, rfl⟩
          · exact Event.noConfusion h
          · exact Event.noConfusion h
          · exact Or.inl h
        | ok mlis =>
          simp only [hudp, hmul, List.mem_cons]
          rintro (h | h | h | h)
          · obtain ⟨rfl, rfl, rfl⟩ := Event.evMulListen.inj h
            exact Or.inr ⟨rfl, rfl⟩
          · exact Event.noConfusion h
          · exact Event.noConfusion h
          · exact Or.inl h

/-- Witness for C7: in the all-success world, dialing
"example.com:80" over the plain-UDP variant logs the resolution event,
and the multiplexer-dial event it logs carries the fixed parameters. -/
theorem udp_variants_fixed_params_witness :
    Event.evResolveUDP "udp4" "example.com:80" ∈
      (DialMulWithOptions_udp Wok "example.com:80" ⟨0⟩ 10 3 initState).2.trace ∧
    (Event.evMulDial (Dialer.udpDialer ⟨"example.com:80"⟩) 10 mulconMethod "123"
        ∈ initState.trace ∨
      ((10 : Int) = 10 ∧ mulconMethod = mulconMethod ∧ ("123" : String) = "123" ∧
        ∃ u, Dialer.udpDialer ⟨"example.com:80"⟩ = Dialer.udpDialer u ∧
          Wok.resolveUDPAddr "udp4" "example.com:80" = Except.ok u)) := by
  constructor
  · exact (udp_variants_fixed_params Wok "example.com:80" "x" ⟨0⟩ 10 3
      initState initState).2.1
  · exact (udp_variants_fixed_params Wok "example.com:80" "x" ⟨0⟩ 10 3
      initState initState).2.2.1 (Dialer.udpDialer ⟨"example.com:80"⟩) 10
      mulconMethod "123" (by decide)

/-- Counterexample for C4 as stated: `DialMulWithOptions_udp` is one of
the six establishment entry points, yet when UDP address resolution
fails it returns the collaborator's error with no stage annotation at
all (no `errors.Wrap` layer). -/
theorem stage_annotation_cex :
    (DialMulWithOptions_udp Wfail "example.com:80" ⟨0⟩ 10 3 initState).1 =
      Except.error (Err.base "eresolve") ∧
    isWrapped (Err.base "eresolve") = false :=
  ⟨rfl, rfl⟩

/-- C4 amended: every failure of the six entry points is propagated to
the immediate caller exactly once, never retried or swallowed; errors
from validation, the raw transport, the UDP listen, and the
multiplexer are wrapped with a stage annotation, while errors from UDP
address resolution and from the FEC session-wrap stage are propagated
unannotated. -/
theorem stage_annotation_amended :
    (∀ (w : World) (raddr : String) (b : BlockCrypt) (ds ps : Int)
        (st : GState) (e : Err),
      (DialWithOptions w raddr b ds ps st).1 = Except.error e →
      (∃ e0, e = Err.wrap "checkAddr" e0) ∨
      (∃ e0, e = Err.wrap "net.DialRAW" e0) ∨
      (∃ conn, w.dialRAW raddr = Except.ok conn ∧
        w.newConn raddr b ds ps (PacketConn.raw conn) = Except.error e)) ∧
    (∀ (w : World) (raddr : String) (b : BlockCrypt) (ds ps : Int)
        (secret : String) (mulconn : Int) (st : GState) (e : Err),
      (DialMulWithOptions w raddr b ds ps secret mulconn st).1 = Except.error e →
      (∃ e0, e = Err.wrap "checkAddr" e0) ∨
      (∃ e0, e = Err.wrap "DialMulWithOptions" e0) ∨
      (∃ c, w.mulDial (Dialer.rawDialer raddr) mulconn mulconMethod secret = Except.ok c ∧
        w.newConn raddr b ds ps (PacketConn.mul c) = Except.error e)) ∧
    (∀ (w : World) (raddr : String) (b : BlockCrypt) (ds ps : Int)
        (st : GState) (e : Err),
      (DialMulWithOptions_udp w raddr b ds ps st).1 = Except.error e →
      w.resolveUDPAddr "udp4" raddr = Except.error e ∨
      (∃ e0, e = Err.wrap "DialMulWithOptions" e0) ∨
      (∃ u c, w.resolveUDPAddr "udp4" raddr = Except.ok u ∧
        w.mulDial (Dialer.udpDialer u) 10 mulconMethod "123" = Except.ok c ∧
        w.newConn raddr b ds ps (PacketConn.mul c) = Except.error e)) ∧
    (∀ (w : World) (laddr : String) (b : BlockCrypt) (ds ps : Int)
        (st : GState) (e : Err),
      (ListenWithOptions w laddr b ds ps st).1 = Except.error e →
      (∃ e0, e = Err.wrap "checkAddr" e0) ∨
      (∃ e0, e = Err.wrap "net.ListenRAW" e0) ∨
      (∃ lis, w.listenRAW laddr = Except.ok lis ∧
        w.serveConn b ds ps (ServeSrc.rawSrc lis) = Except.error e)) ∧
    (∀ (w : World) (laddr : String) (b : BlockCrypt) (ds ps : Int)
        (st : GState) (e : Err),
      (ListenMulWithOptions_udp w laddr b ds ps st).1 = Except.error e →
      w.resolveUDPAddr "udp4" laddr = Except.error e ∨
      (∃ e0, e = Err.wrap "net.ListenRAW" e0) ∨
      (∃ e0, e = Err.wrap "ListenMulWithOptions" e0) ∨
      (∃ u conn mlis, w.resolveUDPAddr "udp4" laddr = Except.ok u ∧
        w.listenUDP "udp4" u = Except.ok conn ∧
        w.mulListen (MulBase.udpBase conn) mulconMethod "123" = Except.ok mlis ∧
        w.serveConn b ds ps (ServeSrc.mulSrc mlis) = Except.error e)) ∧
    (∀ (w : World) (laddr : String) (b : BlockCrypt) (ds ps : Int)
        (secret : String) (st : GState) (e : Err),
      (ListenMulWithOptions w laddr b ds ps secret st).1 = Except.error e →
      (∃ e0, e = Err.wrap "net.ListenRAW" e0) ∨
      (∃ e0, e = Err.wrap "ListenMulWithOptions" e0) ∨
      (∃ lis mlis, w.listenRAW laddr = Except.ok lis ∧
        w.mulListen (MulBase.rawBase lis) mulconMethod secret = Except.ok mlis ∧
        w.serveConn b ds ps (ServeSrc.mulSrc mlis) = Except.error e)) := by
  refine ⟨?_, ?_, ?_, ?_, ?_, ?_⟩
  · intro w raddr b ds ps st e h
    simp only [DialWithOptions, logEv] at h
    cases hchk : checkAddr raddr with
    | some ce =>
      simp only [hchk] at h
      simp at h
      exact Or.inl ⟨Err.invalidAddress ce, h.symm⟩
    | none =>
      simp only [hchk] at h
      cases hdial : w.dialRAW raddr with
      | error e0 =>
        simp only [hdial] at h
        simp at h
        exact Or.inr (Or.inl ⟨e0, h.symm⟩)
      | ok conn =>
        simp only [hdial] at h
        exact Or.inr (Or.inr ⟨conn, rfl, h⟩)
  · intro w raddr b ds ps secret mulconn st e h
    simp only [DialMulWithOptions, logEv] at h
    cases hchk : checkAddr raddr with
    | some ce =>
      simp only [hchk] at h
      simp at h
      exact Or.inl ⟨Err.invalidAddress ce, h.symm⟩
    | none =>
      simp only [hchk] at h
      cases hmul : w.mulDial (Dialer.rawDialer raddr) mulconn mulconMethod secret with
      | error e0 =>
        simp only [hmul] at h
        simp at h
        exact Or.inr (Or.inl ⟨e0, h.symm⟩)
      | ok c =>
        simp only [hmul] at h
        exact Or.inr (Or.inr ⟨c, rfl, h⟩)
  · intro w raddr b ds ps st e h
    simp only [DialMulWithOptions_udp, logEv] at h
    cases hres : w.resolveUDPAddr "udp4" raddr with
    | error e0 =>
      simp only [hres] at h
      simp at h
      subst h
      exact Or.inl rfl
    | ok u =>
      simp only [hres] at h
      cases hmul : w.mulDial (Dialer.udpDialer u) 10 mulconMethod "123" with
      | error e0 =>
        simp only [hmul] at h
        simp at h
        exact Or.inr (Or.inl ⟨e0, h.symm⟩)
      | ok c =>
        simp only [hmul] at h
        exact Or.inr (Or.inr ⟨u, c, rfl, hmul, h⟩)
  · intro w laddr b ds ps st e h
    simp only [ListenWithOptions, logEv] at h
    cases hchk : checkAddr laddr with
    | some ce =>
      simp only [hchk] at h
      simp at h
      exact Or.inl ⟨Err.invalidAddress ce, h.symm⟩
    | none =>
      simp only [hchk] at h
      cases hlis : w.listenRAW laddr with
      | error e0 =>
        simp only [hlis] at h
        simp at h
        exact Or.inr (Or.inl ⟨e0, h.symm⟩)
      | ok lis =>
        simp only [hlis] at h
        exact Or.inr (Or.inr ⟨lis, rfl, h⟩)
  · intro w laddr b ds ps st e h
    simp only [ListenMulWithOptions_udp, logEv] at h
    cases hres : w.resolveUDPAddr "udp4" laddr with
    | error e0 =>
      simp only [hres] at h
      simp at h
      subst h
      exact Or.inl rfl
    | ok u =>
      simp only [hres] at h
      cases hudp : w.listenUDP "udp4" u with
      | error e0 =>
        simp only [hudp] at h
        simp at h
        exact Or.inr (Or.inl ⟨e0, h.symm⟩)
      | ok conn =>
        simp only [hudp] at h
        cases hmul : w.mulListen (MulBase.udpBase conn) mulconMethod "123" with
        | error e0 =>
          simp only [hmul] at h
          simp at h
          exact Or.inr (Or.inr (Or.inl ⟨e0, h.symm⟩))
        | ok mlis =>
          simp only [hmul] at h
          exact Or.inr (Or.inr (Or.inr ⟨u, conn, mlis, rfl, hudp, hmul, h⟩))
  · intro w laddr b ds ps secret st e h
    simp only [ListenMulWithOptions, logEv] at h
    cases hlis : w.listenRAW laddr with
    | error e0 =>
      simp only [hlis] at h
      simp at h
      exact Or.inl ⟨e0, h.symm⟩
    | ok lis =>
      simp only [hlis] at h
      cases hmul : w.mulListen (MulBase.rawBase lis) mulconMethod secret with
      | error e0 =>
        simp only [hmul] at h
        simp at h
        exact Or.inr (Or.inl ⟨e0, h.symm⟩)
      | ok mlis =>
        simp only [hmul] at h
        exact Or.inr (Or.inr ⟨lis, mlis, rfl, hmul, h⟩)

/-- Witness for the amended C4: in the all-fail world a raw-dial
failure of `DialWithOptions` surfaces as the stage-annotated wrapped
error. -/
theorem stage_annotation_amended_witness :
    (∃ e0, Err.wrap "net.DialRAW" (Err.base "edial") = Err.wrap "checkAddr" e0) ∨
    (∃ e0, Err.wrap "net.DialRAW" (Err.base "edial") = Err.wrap "net.DialRAW" e0) ∨
    (∃ conn, Wfail.dialRAW "1.2.3.4:80" = Except.ok conn ∧
      Wfail.newConn "1.2.3.4:80" ⟨0⟩ 10 3 (PacketConn.raw conn) =
        Except.error (Err.wrap "net.DialRAW" (Err.base "edial"))) :=
  stage_annotation_amended.1 Wfail "1.2.3.4:80" ⟨0⟩ 10 3 initState
    (Err.wrap "net.DialRAW" (Err.base "edial")) rfl

end Kcpraw
